import Mathlib

/-!
Verification development for `coverParse` (`src/index.ts`), a bulk media
downloader: per-destination admission control, bounded retry with growing
backoff, terminal/transient error classification, URL unwrapping with a
fallback fetch, and a resumable URL→outcome checkpoint map.

The embedding models the source at the character level: JS strings become
Lean `String`s manipulated through their character lists, response bodies
become `List Nat` (byte values), and the network is an oracle mapping the
attempt number to the result the HTTP client delivers for that attempt.
The MD5 digest is an external library call with no logic of its own, so the
model is parameterized by the digest function `List Nat → String`.
-/

namespace CoverParse

/-! ## JS string primitives

The source uses `String.prototype.includes`, `indexOf`, `substring`,
`startsWith`, `slice` and `toLowerCase`.  All are modelled on the string's
character list.  `toLowerCase` is modelled for ASCII (all strings the
program compares are ASCII).
-/

/-- JS `s.toLowerCase()` (ASCII range). -/
def jsToLower (s : String) : String :=
  String.mk (s.toList.map Char.toLower)

/-- Index of the first occurrence of `pat` inside `l`, if any. -/
def firstMatch (pat : List Char) : List Char → Option Nat
  | [] => if pat.isPrefixOf ([] : List Char) then some 0 else none
  | c :: cs => if pat.isPrefixOf (c :: cs) then some 0 else (firstMatch pat cs).map (· + 1)

/-- JS `s.includes(pat)`. -/
def jsIncludes (s pat : String) : Bool :=
  (firstMatch pat.toList s.toList).isSome

/-- JS `s.indexOf(pat)`: index of the first occurrence, `-1` when absent. -/
def jsIndexOf (s pat : String) : Int :=
  match firstMatch pat.toList s.toList with
  | some i => (i : Int)
  | none => -1

/-- JS `s.startsWith(pat)`. -/
def jsStartsWith (s pat : String) : Bool :=
  pat.toList.isPrefixOf s.toList

/-- `removeBefore` from the source (line 107):
`(s, del) => s.substring(s.indexOf(del) + 1, s.length)` — the suffix of `s`
after the first occurrence of `del`, or `s` unchanged when `del` does not
occur (`indexOf` is `-1`, so `substring` starts at 0). -/
def removeBefore (s del : String) : String :=
  String.mk (s.toList.drop (jsIndexOf s del + 1).toNat)

/-! ## Fetch Engine (`Downloader.doDownload`, lines 44–88) -/

/-- `outDir` from the source (line 16). -/
def outDir : String := "./images"

/-- `mediaTypes` from the source (line 53). -/
def mediaTypes : List String := ["audio", "image", "video"]

/-- What one HTTP attempt delivers to `doDownload`: either a response
(content-type header, if present, and the buffered body bytes) or a thrown
error carrying a message.  With `throwHttpErrors = false` the HTTP client
returns error statuses as ordinary responses, so that mode never sees a
status error; network-level failures throw in both modes. -/
inductive FetchResult where
  | response (contentType : Option String) (body : List Nat)
  | error (message : String)
deriving DecidableEq

/-- The terminal-status `switch` of the source (lines 71–79): the six exact
error-message strings that are returned immediately. -/
def terminalStatusMessage (msg : String) : Bool :=
  msg == "Response code 400 (Bad Request)" ||
  msg == "Response code 404 (Not Found)" ||
  msg == "Response code 403 (Forbidden)" ||
  msg == "Response code 503 (Service Unavailable)" ||
  msg == "Response code 410 (Gone)" ||
  msg == "Response code 422 (Unknown)"

/-- An error message the catch block returns without retrying: one of the
six exact status strings, or a DNS failure (line 81:
`err.message.includes("getaddrinfo ENOTFOUND")`). -/
def isTerminalError (msg : String) : Bool :=
  terminalStatusMessage msg || jsIncludes msg "getaddrinfo ENOTFOUND"

/-- The content-type test of lines 55–58: the header is present and either
contains none of the media types or contains `charset` (case-insensitive). -/
def invalidContentType (ct : String) : Bool :=
  !(mediaTypes.any fun t => jsIncludes (jsToLower ct) t) ||
    jsIncludes (jsToLower ct) "charset"

/-- Observable behaviour of one `doDownload` call: the resolved outcome
string, the number of HTTP attempts performed, and the `sleep` durations
(milliseconds) awaited between attempts, in order. -/
structure DownloadLog where
  outcome : String
  attempts : Nat
  delays : List Nat
deriving DecidableEq

/-- `Downloader.MaxRetries` (line 23). -/
def MaxRetries : Nat := 5

/-- `doDownload` with the bounded recursion made structural: `fuel` stands
for `MaxRetries - retries`, so the source's guard `retries < MaxRetries`
becomes the pattern `fuel = _ + 1`, and the recursive call's
`retries + 1` corresponds to `fuel - 1`.  The oracle `net` is consulted at
the current `retries` value (the attempt number, 0-based).  Mirrors lines
44–88: a response first passes the content-type check — on violation a
strict call returns `Invalid content-type <value>` directly (line 60) while
a non-strict call throws it (line 59), sending the message through the same
catch block as network errors; a valid response is written to
`<outDir>/<md5>.<ext>` (lines 63–69).  A caught error message is returned
as-is when terminal, otherwise the call sleeps `retryDelay` and retries
with `retryDelay + 1000` (lines 83–87).  In the `fuel = 0` case (i.e.
`retries = MaxRetries`) a caught message is returned whether terminal or
not (lines 78, 81 and 86 coincide there), so the terminal test is elided
in that branch. -/
def doDownloadFuel (h : List Nat → String) (net : Nat → FetchResult)
    (throwHttpErrors : Bool) : Nat → Nat → Nat → DownloadLog
  | 0, retries, _ =>
    match net retries with
    | .error msg => ⟨msg, 1, []⟩
    | .response (some c) body =>
      if invalidContentType c then ⟨"Invalid content-type " ++ c, 1, []⟩
      else ⟨outDir ++ "/" ++ h body ++ "." ++ removeBefore c "/", 1, []⟩
    | .response none body =>
      ⟨outDir ++ "/" ++ h body ++ "." ++ "", 1, []⟩
  | fuel + 1, retries, retryDelay =>
    match net retries with
    | .error msg =>
      if isTerminalError msg then ⟨msg, 1, []⟩
      else
        let rest := doDownloadFuel h net throwHttpErrors fuel (retries + 1) (retryDelay + 1000)
        ⟨rest.outcome, rest.attempts + 1, retryDelay :: rest.delays⟩
    | .response (some c) body =>
      if invalidContentType c then
        if throwHttpErrors then ⟨"Invalid content-type " ++ c, 1, []⟩
        else
          if isTerminalError ("Invalid content-type " ++ c) then
            ⟨"Invalid content-type " ++ c, 1, []⟩
          else
            let rest := doDownloadFuel h net throwHttpErrors fuel (retries + 1) (retryDelay + 1000)
            ⟨rest.outcome, rest.attempts + 1, retryDelay :: rest.delays⟩
      else ⟨outDir ++ "/" ++ h body ++ "." ++ removeBefore c "/", 1, []⟩
    | .response none body =>
      ⟨outDir ++ "/" ++ h body ++ "." ++ "", 1, []⟩

/-- `doDownload(url, throwHttpErrors, retries, retryDelay)`; the public
`download` calls it with `retries = 0, retryDelay = 1000` (the source's
parameter defaults, line 44). -/
def doDownload (h : List Nat → String) (net : Nat → FetchResult)
    (throwHttpErrors : Bool) (retries retryDelay : Nat) : DownloadLog :=
  doDownloadFuel h net throwHttpErrors (MaxRetries - retries) retries retryDelay

/-- The error message raised by attempt `i`, if that attempt raises one:
a thrown network/HTTP error, or — in non-strict mode only — the thrown
`Invalid content-type` error of line 59. -/
def attemptError (net : Nat → FetchResult) (throwHttpErrors : Bool) (i : Nat) : Option String :=
  match net i with
  | .error msg => some msg
  | .response (some c) _ =>
    if invalidContentType c && !throwHttpErrors then some ("Invalid content-type " ++ c)
    else none
  | .response none _ => none

/-- The sleep durations of a run of `fuel` consecutive retries whose first
delay is `d`: `d, d + 1000, d + 2000, …`. -/
def delaysFrom : Nat → Nat → List Nat
  | 0, _ => []
  | fuel + 1, d => d :: delaysFrom fuel (d + 1000)

/-! ## URL model

The source uses the platform's WHATWG `URL` constructor (which throws on a
string it cannot parse) and `searchParams.get`.  These are external platform
APIs; they are modelled here restricted to the fragment the program
exercises: plain `http://` / `https://` URLs without userinfo, port or
percent-encoding.  Any other string is modelled as a parse failure, as the
real constructor throws on a string with no scheme (in particular on a
candidate whose `//` prefix was stripped). -/

/-- The components of a parsed URL that the program reads. -/
structure ParsedURL where
  scheme : String
  hostname : String
  path : String
  query : String
deriving DecidableEq

/-- Split a character list on a separator character (used for `&` between
query parameters). -/
def splitOnSep (d : Char) : List Char → List (List Char)
  | [] => [[]]
  | c :: cs =>
    if c == d then [] :: splitOnSep d cs
    else
      match splitOnSep d cs with
      | [] => [[c]]
      | h :: t => (c :: h) :: t

/-- `u.searchParams.get(name)`: the value (text after the first `=`) of the
first `name=...` pair of the query string; `""` for a bare `name`; absent
when no pair has that name. -/
def searchParamGet (query : String) (name : String) : Option String :=
  ((splitOnSep '&' query.toList).filterMap fun kv =>
    if kv.takeWhile (fun c => c != '=') = name.toList then
      some (String.mk ((kv.dropWhile (fun c => c != '=')).drop 1))
    else none).head?

/-- Model of `new URL(s)`: `some` components for a plain absolute
`http(s)://host[/path][?query][#fragment]` string, `none` (the constructor
throws) otherwise. -/
def parseURL (s : String) : Option ParsedURL :=
  let chars := s.toList
  let afterScheme :=
    if "https://".toList.isPrefixOf chars then some ("https", chars.drop 8)
    else if "http://".toList.isPrefixOf chars then some ("http", chars.drop 7)
    else none
  match afterScheme with
  | none => none
  | some (scheme, rest) =>
    let host := rest.takeWhile fun c => c != '/' && c != '?' && c != '#'
    if host.isEmpty then none
    else
      let after := rest.drop host.length
      let path := after.takeWhile fun c => c != '?' && c != '#'
      let afterPath := after.drop path.length
      let query :=
        if afterPath.head? = some '?' then (afterPath.drop 1).takeWhile (fun c => c != '#')
        else []
      some ⟨scheme, String.mk host, String.mk path, String.mk query⟩

/-! ## Setup: `imgMap` construction (lines 125–133) -/

/-- One iteration of the `imgMap` loop: `new URL(url)` (which, having no
surrounding try/catch, makes the whole run fail on a malformed original
URL — modelled as `none`), then the `url` query parameter if present else
the original, then stripping a leading `//`. -/
def resolveOne (url : String) : Option String :=
  match parseURL url with
  | none => none
  | some u =>
    let qUrl := searchParamGet u.query "url"
    let fUrl := qUrl.getD url
    some (if jsStartsWith fUrl "//" then String.mk (fUrl.toList.drop 2) else fUrl)

/-- The whole setup loop: original URL ↦ resolved candidate for every
deduplicated URL, or `none` when any `new URL(url)` throws. -/
def buildImgMap : List String → Option (List (String × String))
  | [] => some []
  | url :: rest =>
    match resolveOne url with
    | none => none
    | some f =>
      match buildImgMap rest with
      | none => none
      | some l => some ((url, f) :: l)

/-! ## Checkpoint map (`urlPathMap`) as an association list -/

/-- `urlPathMap[k]` (`undefined` ↦ `none`). -/
def getVal : List (String × String) → String → Option String
  | [], _ => none
  | (k, v) :: rest, key => if k == key then some v else getVal rest key

/-- `urlPathMap[k] = v`. -/
def setVal : List (String × String) → String → String → List (String × String)
  | [], key, v => [(key, v)]
  | (k, w) :: rest, key, v =>
    if k == key then (k, v) :: rest else (k, w) :: setVal rest key v

/-! ## Orchestrator: the per-item job (lines 164–190) -/

/-- One `Downloader.download` invocation as observed from outside: which
URL was fetched, whether HTTP error statuses throw (`strict`), and which
destination's `Downloader` (keyed by hostname, or the dedicated `"retry"`
instance) carried it. -/
structure FetchCall where
  target : ParsedURL
  strict : Bool
  dest : String
deriving DecidableEq

/-- The body of one `todo.map` job, with the admission semaphore elided
(it does not change outcomes) and the network supplied per download call:
`neti j` is the attempt oracle of the `j`-th `download` of this item.
Mirrors lines 165–190: skip when the checkpoint already has the key;
`new URL(k)` (uncaught — `none` models the rejection); `new URL(url)` with
fallback to `kUrl`; then either one non-strict fetch (when `k === url`) or
a strict fetch followed, when the outcome does not contain `outDir`, by one
non-strict fetch of the original URL through the `retry` downloader. -/
def processItem (h : List Nat → String) (neti : Nat → Nat → FetchResult)
    (map : List (String × String)) (k url : String) :
    Option (List (String × String) × List FetchCall) :=
  if (getVal map k).isSome then some (map, [])
  else
    match parseURL k with
    | none => none
    | some kUrl =>
      if k == url then
        some (setVal map k (doDownload h (neti 0) false 0 1000).outcome,
          [⟨(parseURL url).getD kUrl, false, ((parseURL url).getD kUrl).hostname⟩])
      else
        if jsIncludes (doDownload h (neti 0) true 0 1000).outcome outDir then
          some (setVal map k (doDownload h (neti 0) true 0 1000).outcome,
            [⟨(parseURL url).getD kUrl, true, ((parseURL url).getD kUrl).hostname⟩])
        else
          some (setVal map k (doDownload h (neti 1) false 0 1000).outcome,
            [⟨(parseURL url).getD kUrl, true, ((parseURL url).getD kUrl).hostname⟩,
             ⟨kUrl, false, "retry"⟩])

/-- All jobs in sequence (the source dispatches them concurrently, but each
job touches only its own key, so the sequential composition records the
same outcomes); `net i` is the per-download network oracle of the `i`-th
item.  `none` models the run aborting on an uncaught exception. -/
def processAll (h : List Nat → String) (net : Nat → Nat → Nat → FetchResult)
    (map : List (String × String)) :
    List (String × String) → Option (List (String × String))
  | [] => some map
  | (k, url) :: rest =>
    match processItem h (net 0) map k url with
    | none => none
    | some (map', _) => processAll h (fun i => net (i + 1)) map' rest

/-- The run: build `imgMap` from the deduplicated URL list (aborting on a
malformed original URL), then process every item against the loaded
checkpoint. -/
def runMain (h : List Nat → String) (net : Nat → Nat → Nat → FetchResult)
    (urls : List String) (urlPathMap : List (String × String)) :
    Option (List (String × String)) :=
  match buildImgMap urls with
  | none => none
  | some imgMap => processAll h net urlPathMap imgMap

/-- A stored-asset path as the spec defines success outcomes: a path
residing under the output directory, `<outDir>/<digest>.<ext>`. -/
def isStoredAssetPath (s : String) : Bool :=
  jsStartsWith s (outDir ++ "/")

/-- Modelled from the spec: the message of the external HTTP client's
status error, `Response code <status> (<reason phrase>)` — the spec fixes
the format by the example `"Response code 404 (Not Found)"`.  The reason
phrase is the one the server sends on the status line; the standard phrase
for 422 (RFC 9110) is `Unprocessable Entity`. -/
def gotStatusMessage (status : Nat) (reason : String) : String :=
  "Response code " ++ toString status ++ " (" ++ reason ++ ")"

/-! ## Admission Limiter (`Downloader` semaphore, lines 18–42, 90–98)

State of one `Downloader` instance plus ghost fields: `cap` records the
constructor argument (the class never stores or changes it), `granted` the
ids granted a slot in grant order, and `released` the number of
`releaseDownloadSemaphore` calls — these only observe the behaviour. -/

structure DownloaderState where
  cap : Nat
  avalibleDeliverySlots : Int
  downloadQueue : List Nat
  granted : List Nat
  released : Nat
deriving DecidableEq

/-- `new Downloader(downloadThreads)` (lines 25–27). -/
def mkDownloader (downloadThreads : Nat) : DownloaderState :=
  ⟨downloadThreads, downloadThreads, [], [], 0⟩

/-- Downloads currently holding a slot: granted and not yet released. -/
def inFlight (d : DownloaderState) : Int :=
  (d.granted.length : Int) - (d.released : Int)

/-- The two semaphore operations as events (`id` names the acquiring job). -/
inductive SemEvent where
  | acquire (id : Nat)
  | release
deriving DecidableEq

/-- One step: `getDownloadSempahore` (lines 29–35) grants immediately when
a slot is free, otherwise appends the caller to `downloadQueue`;
`releaseDownloadSemaphore` (lines 37–42) increments the slot count and, if
anyone is queued, resolves the first queued caller, whose continuation
synchronously re-decrements the count. -/
def semStep (d : DownloaderState) : SemEvent → DownloaderState
  | .acquire id =>
    if d.avalibleDeliverySlots > 0 then
      { d with avalibleDeliverySlots := d.avalibleDeliverySlots - 1,
               granted := d.granted ++ [id] }
    else { d with downloadQueue := d.downloadQueue ++ [id] }
  | .release =>
    let d' := { d with avalibleDeliverySlots := d.avalibleDeliverySlots + 1,
                       released := d.released + 1 }
    match d'.downloadQueue with
    | [] => d'
    | w :: rest =>
      { d' with avalibleDeliverySlots := d'.avalibleDeliverySlots - 1,
                downloadQueue := rest,
                granted := d'.granted ++ [w] }

/-- A trace is well-formed from `d` when every `release` is performed by a
job that holds a slot (each job acquires one permit and releases it once,
after being granted). -/
def wfFrom (d : DownloaderState) : List SemEvent → Bool
  | [] => true
  | e :: es =>
    (match e with
     | .release => decide (0 < inFlight d)
     | .acquire _ => true) && wfFrom (semStep d e) es

/-- Run a trace of semaphore events. -/
def runTrace (d : DownloaderState) (tr : List SemEvent) : DownloaderState :=
  tr.foldl semStep d

/-! ## Fetch Engine lemmas -/

/-- An attempt raising a terminal error message ends the call at once:
the message is the outcome, one attempt, no sleep. -/
theorem doDownloadFuel_terminal (h : List Nat → String) (net : Nat → FetchResult)
    (te : Bool) (fuel r d : Nat) (msg : String)
    (hm : net r = FetchResult.error msg) (ht : isTerminalError msg = true) :
    doDownloadFuel h net te fuel r d = ⟨msg, 1, []⟩ := by
  cases fuel <;> simp [doDownloadFuel, hm, ht]

/-- A valid-content-type response ends the call with the stored file path. -/
theorem doDownloadFuel_success (h : List Nat → String) (net : Nat → FetchResult)
    (te : Bool) (fuel r d : Nat) (c : String) (body : List Nat)
    (hm : net r = FetchResult.response (some c) body) (hv : invalidContentType c = false) :
    doDownloadFuel h net te fuel r d =
      ⟨outDir ++ "/" ++ h body ++ "." ++ removeBefore c "/", 1, []⟩ := by
  cases fuel <;> simp [doDownloadFuel, hm, hv]

/-- A response with no content-type header skips validation and ends the
call with a path carrying the empty extension. -/
theorem doDownloadFuel_no_ct (h : List Nat → String) (net : Nat → FetchResult)
    (te : Bool) (fuel r d : Nat) (body : List Nat)
    (hm : net r = FetchResult.response none body) :
    doDownloadFuel h net te fuel r d =
      ⟨outDir ++ "/" ++ h body ++ "." ++ "", 1, []⟩ := by
  cases fuel <;> simp [doDownloadFuel, hm]

/-- In strict mode an invalid content-type ends the call at once with the
`Invalid content-type` message. -/
theorem doDownloadFuel_invalid_strict (h : List Nat → String) (net : Nat → FetchResult)
    (fuel r d : Nat) (c : String) (body : List Nat)
    (hm : net r = FetchResult.response (some c) body) (hv : invalidContentType c = true) :
    doDownloadFuel h net true fuel r d = ⟨"Invalid content-type " ++ c, 1, []⟩ := by
  cases fuel <;> simp [doDownloadFuel, hm, hv]

/-- With fuel exhausted, an attempt that raises any error message returns
that message. -/
theorem doDownloadFuel_zero_of_error (h : List Nat → String) (net : Nat → FetchResult)
    (te : Bool) (r d : Nat) (msg : String)
    (he : attemptError net te r = some msg) :
    doDownloadFuel h net te 0 r d = ⟨msg, 1, []⟩ := by
  unfold attemptError at he
  cases hn : net r with
  | error m =>
    rw [hn] at he
    injection he with he
    subst he
    simp [doDownloadFuel, hn]
  | response ct body =>
    rw [hn] at he
    cases ct with
    | none => simp at he
    | some c =>
      by_cases hic : invalidContentType c = true
      · cases te with
        | true => simp [hic] at he
        | false =>
          simp [hic] at he
          subst he
          simp [doDownloadFuel, hn, hic]
      · simp [hic] at he

/-- With fuel left, an attempt raising a non-terminal error message sleeps
`retryDelay` and retries with the delay grown by 1000 ms. -/
theorem doDownloadFuel_transient_step (h : List Nat → String) (net : Nat → FetchResult)
    (te : Bool) (fuel r d : Nat) (msg : String)
    (he : attemptError net te r = some msg) (ht : isTerminalError msg = false) :
    doDownloadFuel h net te (fuel + 1) r d =
      ⟨(doDownloadFuel h net te fuel (r + 1) (d + 1000)).outcome,
       (doDownloadFuel h net te fuel (r + 1) (d + 1000)).attempts + 1,
       d :: (doDownloadFuel h net te fuel (r + 1) (d + 1000)).delays⟩ := by
  unfold attemptError at he
  cases hn : net r with
  | error m =>
    rw [hn] at he
    injection he with he
    subst he
    simp [doDownloadFuel, hn, ht]
  | response ct body =>
    rw [hn] at he
    cases ct with
    | none => simp at he
    | some c =>
      by_cases hic : invalidContentType c = true
      · cases te with
        | true => simp [hic] at he
        | false =>
          simp [hic] at he
          subst he
          simp [doDownloadFuel, hn, hic, ht]
      · simp [hic] at he

/-- A run whose every attempt raises a non-terminal error performs all
`fuel` retries, sleeping `d, d + 1000, …`, and resolves to the message of
the last attempt. -/
theorem doDownloadFuel_transient_run (h : List Nat → String) (net : Nat → FetchResult)
    (te : Bool) (msgs : Nat → String) (fuel : Nat) :
    ∀ r d,
      (∀ j, j ≤ fuel → attemptError net te (r + j) = some (msgs (r + j))) →
      (∀ j, j ≤ fuel → isTerminalError (msgs (r + j)) = false) →
      doDownloadFuel h net te fuel r d = ⟨msgs (r + fuel), fuel + 1, delaysFrom fuel d⟩ := by
  induction fuel with
  | zero =>
    intro r d hm _
    have h0 := hm 0 (by omega)
    simp only [Nat.add_zero] at h0 ⊢
    simp [delaysFrom, doDownloadFuel_zero_of_error h net te r d _ h0]
  | succ fuel ih =>
    intro r d hm ht
    have h0 := hm 0 (by omega)
    have t0 := ht 0 (by omega)
    simp only [Nat.add_zero] at h0 t0
    rw [doDownloadFuel_transient_step h net te fuel r d _ h0 t0]
    have hrec := ih (r + 1) (d + 1000)
      (fun j hj => by
        have hx := hm (j + 1) (by omega)
        rwa [show r + (j + 1) = r + 1 + j by omega] at hx)
      (fun j hj => by
        have hx := ht (j + 1) (by omega)
        rwa [show r + (j + 1) = r + 1 + j by omega] at hx)
    rw [hrec, show r + 1 + fuel = r + (fuel + 1) by omega]
    simp [delaysFrom]

/-! ## Claim C1 -/

/-- C1 (amended): an attempt failing with an error the catch block
classifies as terminal — a message equal to one of the six literal status
strings (400, 403, 404, 410, 503, and 422 with reason phrase `Unknown`) or
containing `getaddrinfo ENOTFOUND` — makes the fetch return that message
immediately as the outcome after exactly one attempt with no retry sleep;
in particular HTTP 404 yields exactly `Response code 404 (Not Found)`. -/
theorem c1_terminal_no_retry (h : List Nat → String) (net : Nat → FetchResult)
    (strict : Bool) (msg : String)
    (hm : net 0 = FetchResult.error msg) (ht : isTerminalError msg = true) :
    doDownload h net strict 0 1000 = ⟨msg, 1, []⟩ := by
  unfold doDownload
  exact doDownloadFuel_terminal h net strict _ 0 1000 msg hm ht

/-- Witness for C1: a request failing with HTTP 404 resolves to exactly
`Response code 404 (Not Found)` after one attempt and no sleeps. -/
theorem c1_terminal_no_retry_witness :
    doDownload (fun _ => "")
      (fun _ => FetchResult.error "Response code 404 (Not Found)") true 0 1000 =
      ⟨"Response code 404 (Not Found)", 1, []⟩ :=
  c1_terminal_no_retry (fun _ => "")
    (fun _ => FetchResult.error "Response code 404 (Not Found)") true
    "Response code 404 (Not Found)" rfl (by decide)

/-- Counterexample to C1 as stated: an HTTP 422 failure whose message
carries the standard reason phrase (`Response code 422 (Unprocessable
Entity)`, RFC 9110 / Node's status table — the switch only matches
`Response code 422 (Unknown)`) is retried five times instead of being
returned immediately: 6 attempts and 5 backoff sleeps, not 1 attempt. -/
theorem c1_status_422_retried :
    (doDownload (fun _ => "")
      (fun _ => FetchResult.error (gotStatusMessage 422 "Unprocessable Entity"))
      true 0 1000).attempts = 6 ∧
    (doDownload (fun _ => "")
      (fun _ => FetchResult.error (gotStatusMessage 422 "Unprocessable Entity"))
      true 0 1000).delays = [1000, 2000, 3000, 4000, 5000] := by
  constructor <;> decide

/-! ## Claim C2 -/

/-- C2 (amended): when every attempt fails with a non-terminal (transient)
error, the fetch waits 1 s before the first retry, 2 s before the second,
… 5 s before the fifth, performs exactly 6 total attempts (the initial
attempt plus `MaxRetries = 5` retries), and returns the last error's
message as the terminal outcome. -/
theorem c2_transient_backoff (h : List Nat → String) (net : Nat → FetchResult)
    (strict : Bool) (msgs : Nat → String)
    (hm : ∀ i, i ≤ 5 → net i = FetchResult.error (msgs i))
    (ht : ∀ i, i ≤ 5 → isTerminalError (msgs i) = false) :
    doDownload h net strict 0 1000 = ⟨msgs 5, 6, [1000, 2000, 3000, 4000, 5000]⟩ := by
  unfold doDownload
  have := doDownloadFuel_transient_run h net strict msgs (MaxRetries - 0) 0 1000
    (fun j hj => by
      simp only [Nat.zero_add]
      simp [attemptError, hm j (by revert hj; unfold MaxRetries; omega)])
    (fun j hj => by
      simp only [Nat.zero_add]
      exact ht j (by revert hj; unfold MaxRetries; omega))
  rw [this]
  unfold MaxRetries
  simp only [Nat.zero_add]
  norm_num
  decide

/-- Counterexample to C2 as stated ("no more than 5 total attempts"): a
request whose every attempt fails with the transient error
`socket hang up` performs 6 attempts before giving up. -/
theorem c2_six_attempts :
    (doDownload (fun _ => "") (fun _ => FetchResult.error "socket hang up")
      true 0 1000).attempts = 6 := by
  decide

/-! ## String lemmas -/

/-- Two strings whose first characters differ are distinct, even after
appending to the first. -/
theorem append_ne_of_head (a b t : String) (x y : Char) (hxy : x ≠ y)
    (ha : a.data.head? = some x) (ht : t.data.head? = some y) : a ++ b ≠ t := by
  intro he
  have h1 : (a ++ b).data.head? = t.data.head? := by rw [he]
  rw [String.data_append, List.head?_append, ha, ht] at h1
  simp at h1
  exact hxy h1

/-- The synthesized `Invalid content-type …` message never equals one of
the six literal `Response code …` strings of the terminal switch. -/
theorem terminalStatus_invalid_ct (c : String) :
    terminalStatusMessage ("Invalid content-type " ++ c) = false := by
  have h := append_ne_of_head "Invalid content-type " c
  simp only [terminalStatusMessage, Bool.or_eq_false_iff, beq_eq_false_iff_ne]
  refine ⟨⟨⟨⟨⟨?_, ?_⟩, ?_⟩, ?_⟩, ?_⟩, ?_⟩ <;>
    exact h _ 'I' 'R' (by decide) (by decide) (by decide)

/-- The first occurrence of the character `d` in `l₁ ++ d :: l₂` is at
index `l₁.length` when `d` does not occur in `l₁`. -/
theorem firstMatch_single_append (d : Char) (l₁ l₂ : List Char)
    (h : firstMatch [d] l₁ = none) :
    firstMatch [d] (l₁ ++ d :: l₂) = some l₁.length := by
  induction l₁ with
  | nil => simp [firstMatch, List.isPrefixOf]
  | cons c cs ih =>
    rw [firstMatch] at h
    by_cases hp : [d].isPrefixOf (c :: cs) = true
    · simp [hp] at h
    · rw [if_neg hp, Option.map_eq_none'] at h
      have hdc : (d == c) = false := by
        simpa [List.isPrefixOf] using hp
      rw [List.cons_append, firstMatch]
      simp [List.isPrefixOf, hdc, ih h]

/-- `removeBefore` takes the substring after the first `/` separator: on
`pre ++ "/" ++ suf` with no `/` inside `pre`, it returns `suf`. -/
theorem removeBefore_append (pre suf : String) (hp : jsIncludes pre "/" = false) :
    removeBefore (pre ++ "/" ++ suf) "/" = suf := by
  have hfm : firstMatch ['/'] pre.toList = none := by
    unfold jsIncludes at hp
    rw [show ("/" : String).toList = ['/'] from rfl] at hp
    cases hc : firstMatch ['/'] pre.toList with
    | none => rfl
    | some i => rw [hc] at hp; simp at hp
  have hdata : (pre ++ "/" ++ suf).toList = pre.toList ++ '/' :: suf.toList := by
    show (pre ++ "/" ++ suf).data = pre.data ++ '/' :: suf.data
    rw [String.data_append, String.data_append]
    simp
  have key : firstMatch ['/'] (pre ++ "/" ++ suf).toList = some pre.toList.length := by
    rw [hdata]
    exact firstMatch_single_append '/' pre.toList suf.toList hfm
  unfold removeBefore jsIndexOf
  rw [show ("/" : String).toList = ['/'] from rfl, key]
  have hnat : ((pre.toList.length : Int) + 1).toNat = pre.toList.length + 1 := by omega
  rw [hnat, hdata]
  have hdrop : (pre.toList ++ '/' :: suf.toList).drop (pre.toList.length + 1) = suf.toList := by
    have : pre.toList ++ '/' :: suf.toList = (pre.toList ++ ['/']) ++ suf.toList := by simp
    rw [this, show pre.toList.length + 1 = (pre.toList ++ ['/']).length by simp,
      List.drop_left]
  rw [hdrop]
  rfl

/-! ## Claim C4 -/

/-- C4 (amended): a response whose content-type lacks all of
`audio`/`image`/`video` or contains `charset` produces the outcome
`Invalid content-type <value>`, but the retry behaviour differs by mode:
a strict fetch returns it immediately after one attempt with no retry,
while a non-strict fetch throws the message into the generic catch block,
which treats it as transient — with the violation persisting, the fetch
performs all 5 retries (sleeping 1 s … 5 s) before returning the message
as the outcome of the 6th attempt.  (The message is never classified
terminal as long as the content-type value does not itself contain
`getaddrinfo ENOTFOUND`.) -/
theorem c4_invalid_content_type (h : List Nat → String) (net : Nat → FetchResult)
    (c : String) (body : List Nat)
    (hv : invalidContentType c = true)
    (hm : ∀ i, i ≤ 5 → net i = FetchResult.response (some c) body)
    (hg : jsIncludes ("Invalid content-type " ++ c) "getaddrinfo ENOTFOUND" = false) :
    doDownload h net true 0 1000 = ⟨"Invalid content-type " ++ c, 1, []⟩ ∧
    doDownload h net false 0 1000 =
      ⟨"Invalid content-type " ++ c, 6, [1000, 2000, 3000, 4000, 5000]⟩ := by
  have hterm : isTerminalError ("Invalid content-type " ++ c) = false := by
    unfold isTerminalError
    rw [terminalStatus_invalid_ct, hg]
    rfl
  constructor
  · unfold doDownload
    exact doDownloadFuel_invalid_strict h net _ 0 1000 c body (hm 0 (by omega)) hv
  · unfold doDownload
    have := doDownloadFuel_transient_run h net false
      (fun _ => "Invalid content-type " ++ c) (MaxRetries - 0) 0 1000
      (fun j hj => by
        simp only [Nat.zero_add]
        simp [attemptError, hm j (by revert hj; unfold MaxRetries; omega), hv])
      (fun j _ => hterm)
    rw [this]
    unfold MaxRetries
    norm_num
    decide

/-- Counterexample to C4 as stated ("for every fetch (strict or
non-strict) … without any retry"): a non-strict fetch answered with
`content-type: text/html; charset=utf-8` on every attempt is retried five
times — 6 attempts with backoff sleeps — before the `Invalid content-type`
message becomes the outcome. -/
theorem c4_nonstrict_retries :
    doDownload (fun _ => "")
      (fun _ => FetchResult.response (some "text/html; charset=utf-8") []) false 0 1000 =
      ⟨"Invalid content-type text/html; charset=utf-8", 6,
        [1000, 2000, 3000, 4000, 5000]⟩ := by
  decide

/-! ## Claim C5 -/

/-- C5 (confirmed): a successful fetch with a valid media content-type
`pre/suf` stores the body under
`<outDir>/<digest-of-body>.<substring-after-the-slash>` and returns that
path as the outcome; the path depends only on the body bytes and the
content-type, so two fetches returning byte-identical bodies with the same
content-type yield the identical stored path. -/
theorem c5_content_addressed_path (h : List Nat → String)
    (net net' : Nat → FetchResult) (strict strict' : Bool)
    (c pre suf : String) (body : List Nat)
    (hv : invalidContentType c = false)
    (hc : c = pre ++ "/" ++ suf) (hpre : jsIncludes pre "/" = false)
    (hm : net 0 = FetchResult.response (some c) body)
    (hm' : net' 0 = FetchResult.response (some c) body) :
    doDownload h net strict 0 1000 = ⟨outDir ++ "/" ++ h body ++ "." ++ suf, 1, []⟩ ∧
    (doDownload h net strict 0 1000).outcome = (doDownload h net' strict' 0 1000).outcome := by
  have h1 : doDownload h net strict 0 1000 =
      ⟨outDir ++ "/" ++ h body ++ "." ++ removeBefore c "/", 1, []⟩ := by
    unfold doDownload
    exact doDownloadFuel_success h net strict _ 0 1000 c body hm hv
  have h2 : doDownload h net' strict' 0 1000 =
      ⟨outDir ++ "/" ++ h body ++ "." ++ removeBefore c "/", 1, []⟩ := by
    unfold doDownload
    exact doDownloadFuel_success h net' strict' _ 0 1000 c body hm' hv
  subst hc
  rw [h1, h2, removeBefore_append pre suf hpre]
  exact ⟨rfl, rfl⟩

/-! ## Claim C10 -/

/-- C10 (confirmed): a response carrying no content-type header at all
skips the content-type validation entirely and is treated as a success in
both modes: the body is stored as `<outDir>/<digest-of-body>.` with an
empty extension after the trailing dot, and that path is the outcome of a
single attempt. -/
theorem c10_missing_content_type (h : List Nat → String) (net : Nat → FetchResult)
    (strict : Bool) (body : List Nat)
    (hm : net 0 = FetchResult.response none body) :
    doDownload h net strict 0 1000 = ⟨outDir ++ "/" ++ h body ++ "." ++ "", 1, []⟩ := by
  unfold doDownload
  exact doDownloadFuel_no_ct h net strict _ 0 1000 body hm

/-! ## Checkpoint-map lemmas -/

/-- Writing a key makes it readable. -/
theorem getVal_setVal_self (m : List (String × String)) (k v : String) :
    getVal (setVal m k v) k = some v := by
  induction m with
  | nil => simp [setVal, getVal]
  | cons p rest ih =>
    obtain ⟨a, w⟩ := p
    by_cases ha : (a == k) = true
    · simp [setVal, ha, getVal]
    · have ha' : (a == k) = false := by simpa using ha
      simp [setVal, ha', getVal, ih]

/-- Writing a key leaves every other key unchanged. -/
theorem getVal_setVal_ne (m : List (String × String)) (k k' v : String) (h : k' ≠ k) :
    getVal (setVal m k v) k' = getVal m k' := by
  have hkk : (k == k') = false := beq_eq_false_iff_ne.mpr fun he => h he.symm
  induction m with
  | nil => simp [setVal, getVal, hkk]
  | cons p rest ih =>
    obtain ⟨a, w⟩ := p
    by_cases ha : (a == k) = true
    · have haa : a = k := by simpa using ha
      subst haa
      simp [setVal, ha, getVal, hkk]
    · have ha' : (a == k) = false := by simpa using ha
      simp [setVal, ha', getVal, ih]

/-- A job never disturbs another key's recorded outcome. -/
theorem processItem_preserves (h : List Nat → String) (neti : Nat → Nat → FetchResult)
    (m m' : List (String × String)) (calls : List FetchCall) (k url k' v : String)
    (hv : getVal m k' = some v)
    (hp : processItem h neti m k url = some (m', calls)) :
    getVal m' k' = some v := by
  by_cases hk' : k' = k
  · subst hk'
    unfold processItem at hp
    rw [if_pos (by rw [hv]; rfl)] at hp
    injection hp with hp
    cases hp
    exact hv
  · unfold processItem at hp
    by_cases hkk : (getVal m k).isSome
    · rw [if_pos hkk] at hp
      injection hp with hp
      cases hp
      exact hv
    · rw [if_neg hkk] at hp
      cases hpk : parseURL k with
      | none => rw [hpk] at hp; exact absurd hp (by simp)
      | some kU =>
        rw [hpk] at hp
        simp only [] at hp
        by_cases hke : (k == url) = true
        · rw [if_pos hke] at hp
          injection hp with hp
          cases hp
          rw [getVal_setVal_ne m k k' _ hk']
          exact hv
        · rw [if_neg hke] at hp
          by_cases hinc :
              jsIncludes (doDownload h (neti 0) true 0 1000).outcome outDir = true
          · rw [if_pos hinc] at hp
            injection hp with hp
            cases hp
            rw [getVal_setVal_ne m k k' _ hk']
            exact hv
          · rw [if_neg hinc] at hp
            injection hp with hp
            cases hp
            rw [getVal_setVal_ne m k k' _ hk']
            exact hv

/-- No key's recorded outcome changes over the rest of the run. -/
theorem processAll_preserves (h : List Nat → String) (k v : String) :
    ∀ (todo : List (String × String)) (net : Nat → Nat → Nat → FetchResult)
      (m final : List (String × String)),
      getVal m k = some v → processAll h net m todo = some final →
      getVal final k = some v := by
  intro todo
  induction todo with
  | nil =>
    intro net m final hv hr
    unfold processAll at hr
    injection hr with hr
    exact hr ▸ hv
  | cons p rest ih =>
    intro net m final hv hr
    obtain ⟨kk, uu⟩ := p
    unfold processAll at hr
    cases hpi : processItem h (net 0) m kk uu with
    | none => rw [hpi] at hr; exact absurd hr (by simp)
    | some r =>
      obtain ⟨m1, calls⟩ := r
      rw [hpi] at hr
      simp only [] at hr
      exact ih _ m1 final (processItem_preserves h (net 0) m m1 calls kk uu k v hv hpi) hr

/-- A job whose original URL parses always completes with its key
recorded. -/
theorem processItem_total (h : List Nat → String) (neti : Nat → Nat → FetchResult)
    (m : List (String × String)) (k url : String) (kU : ParsedURL)
    (hpk : parseURL k = some kU) :
    ∃ m' calls, processItem h neti m k url = some (m', calls) ∧ (getVal m' k).isSome := by
  unfold processItem
  by_cases hkk : (getVal m k).isSome
  · rw [if_pos hkk]
    exact ⟨m, [], rfl, hkk⟩
  · rw [if_neg hkk, hpk]
    simp only []
    by_cases hke : (k == url) = true
    · rw [if_pos hke]
      exact ⟨_, _, rfl, by rw [getVal_setVal_self]; rfl⟩
    · rw [if_neg hke]
      by_cases hinc : jsIncludes (doDownload h (neti 0) true 0 1000).outcome outDir = true
      · rw [if_pos hinc]
        exact ⟨_, _, rfl, by rw [getVal_setVal_self]; rfl⟩
      · rw [if_neg hinc]
        exact ⟨_, _, rfl, by rw [getVal_setVal_self]; rfl⟩

/-- A run over items whose original URLs all parse completes and records
an outcome for every item. -/
theorem processAll_total (h : List Nat → String) :
    ∀ (todo : List (String × String)) (net : Nat → Nat → Nat → FetchResult)
      (m : List (String × String)),
      (∀ p ∈ todo, (parseURL p.1).isSome) →
      ∃ final, processAll h net m todo = some final ∧
        ∀ p ∈ todo, (getVal final p.1).isSome := by
  intro todo
  induction todo with
  | nil =>
    intro net m _
    exact ⟨m, rfl, by simp⟩
  | cons p rest ih =>
    intro net m hp
    obtain ⟨kk, uu⟩ := p
    obtain ⟨kU, hkU⟩ := Option.isSome_iff_exists.mp (hp (kk, uu) (by simp))
    obtain ⟨m1, calls, hpi, hsome⟩ := processItem_total h (net 0) m kk uu kU hkU
    obtain ⟨final, hrun, hall⟩ :=
      ih (fun i => net (i + 1)) m1 (fun q hq => hp q (List.mem_cons_of_mem _ hq))
    refine ⟨final, ?_, ?_⟩
    · unfold processAll
      rw [hpi]
      simp only []
      rw [hrun]
    · intro q hq
      rcases List.mem_cons.mp hq with hq1 | hq2
      · subst hq1
        obtain ⟨v, hv⟩ := Option.isSome_iff_exists.mp hsome
        have hfin := processAll_preserves h kk v rest (fun i => net (i + 1)) m1 final hv hrun
        rw [hfin]
        rfl
      · exact hall q hq2

/-- With every original URL parsable, the setup loop succeeds and its keys
are exactly the input URLs. -/
theorem buildImgMap_keys (urls : List String)
    (hp : ∀ u ∈ urls, (parseURL u).isSome) :
    ∃ l, buildImgMap urls = some l ∧ l.map Prod.fst = urls := by
  induction urls with
  | nil => exact ⟨[], rfl, rfl⟩
  | cons u rest ih =>
    obtain ⟨pu, hpu⟩ := Option.isSome_iff_exists.mp (hp u (by simp))
    have hro : ∃ f, resolveOne u = some f := by
      unfold resolveOne
      rw [hpu]
      exact ⟨_, rfl⟩
    obtain ⟨f, hf⟩ := hro
    obtain ⟨l, hl, hkeys⟩ := ih fun v hv => hp v (List.mem_cons_of_mem _ hv)
    refine ⟨(u, f) :: l, ?_, by simp [hkeys]⟩
    unfold buildImgMap
    rw [hf]
    simp only []
    rw [hl]

/-! ## Claim C7 -/

/-- C7 (confirmed): a work item whose original URL already has an outcome
in the loaded checkpoint is skipped — the job performs zero download calls
and leaves the map untouched — and no other job of the run ever changes
that key, so its recorded outcome after the whole run is exactly the
loaded one. -/
theorem c7_resume_skips_done_items (h : List Nat → String)
    (neti : Nat → Nat → FetchResult) (map : List (String × String)) (k url v : String)
    (hk : getVal map k = some v) :
    processItem h neti map k url = some (map, []) ∧
    ∀ (net : Nat → Nat → Nat → FetchResult) (todo final : List (String × String)),
      processAll h net map todo = some final → getVal final k = some v := by
  constructor
  · unfold processItem
    rw [if_pos (by rw [hk]; rfl)]
  · intro net todo final hr
    exact processAll_preserves h k v todo net map final hk hr

/-- Witness for C7: a one-item run whose only URL is already checkpointed
performs zero download calls and keeps the stored outcome. -/
theorem c7_resume_skips_done_items_witness :
    processItem (fun _ => "") (fun _ _ => FetchResult.error "boom")
      [("http://a.example/1.png", "./images/aa.png")]
      "http://a.example/1.png" "http://a.example/1.png" =
      some ([("http://a.example/1.png", "./images/aa.png")], []) :=
  (c7_resume_skips_done_items (fun _ => "") (fun _ _ => FetchResult.error "boom")
    [("http://a.example/1.png", "./images/aa.png")]
    "http://a.example/1.png" "http://a.example/1.png" "./images/aa.png" rfl).1

/-! ## Claim C8 -/

/-- C8 (amended): no fetch failure ever aborts the run — for any catalog
whose original URLs all parse as URLs, the run completes and every work
item ends with a recorded outcome in the checkpoint.  (A *malformed*
original URL, by contrast, is not handled: `new URL(url)` in the setup
loop throws uncaught and aborts the whole run — see the counterexample.) -/
theorem c8_run_never_aborts_on_fetch_failure (h : List Nat → String)
    (net : Nat → Nat → Nat → FetchResult) (urls : List String)
    (init : List (String × String))
    (hp : ∀ u ∈ urls, (parseURL u).isSome) :
    ∃ final, runMain h net urls init = some final ∧
      ∀ u ∈ urls, (getVal final u).isSome := by
  obtain ⟨l, hl, hkeys⟩ := buildImgMap_keys urls hp
  have hlp : ∀ p ∈ l, (parseURL p.1).isSome := by
    intro p hpl
    exact hp p.1 (hkeys ▸ List.mem_map_of_mem Prod.fst hpl)
  obtain ⟨final, hrun, hall⟩ := processAll_total h l net init hlp
  refine ⟨final, ?_, ?_⟩
  · unfold runMain
    rw [hl]
    simp only []
    exact hrun
  · intro u hu
    rw [← hkeys] at hu
    obtain ⟨p, hpl, hpu⟩ := List.mem_map.mp hu
    exact hpu ▸ hall p hpl

/-- Counterexample to C8 as stated: a catalog containing the malformed
original URL `"not a url"` makes `new URL(url)` (line 126) throw with no
handler in scope — the run aborts instead of resolving the item by
fallback. -/
theorem c8_malformed_url_aborts_run :
    runMain (fun _ => "") (fun _ _ _ => FetchResult.error "unused") ["not a url"] [] =
      none := by
  decide

/-! ## Claim C6 -/

/-- C6 (amended): on an original URL that parses, resolution is pure and
total: the candidate is the `url` query parameter's value if present, else
the original URL unchanged, with a leading `//` then stripped; and when the
resulting candidate does not itself parse as a URL, the job falls back to
fetching the original URL (the first download call targets the parsed
original).  On an original URL that does **not** parse, resolution fails by
throwing (no fallback handles it). -/
theorem c6_resolver_on_parsable (k : String) (u : ParsedURL)
    (hk : parseURL k = some u) :
    resolveOne k =
      some (if jsStartsWith ((searchParamGet u.query "url").getD k) "//"
            then String.mk (((searchParamGet u.query "url").getD k).toList.drop 2)
            else (searchParamGet u.query "url").getD k) ∧
    (∀ cand, resolveOne k = some cand → parseURL cand = none →
      ∀ (h : List Nat → String) (neti : Nat → Nat → FetchResult)
        (map : List (String × String)), getVal map k = none →
        ∃ m' calls, processItem h neti map k cand = some (m', calls) ∧
          calls.head? = some ⟨u, true, u.hostname⟩) := by
  constructor
  · unfold resolveOne
    rw [hk]
  · intro cand hcand hpc h neti map hmiss
    have hne : (k == cand) = false := by
      apply beq_eq_false_iff_ne.mpr
      intro he
      rw [← he, hk] at hpc
      exact absurd hpc (by simp)
    unfold processItem
    rw [if_neg (by rw [hmiss]; simp), hk]
    simp only []
    rw [if_neg (by simp [hne]), hpc]
    by_cases hinc : jsIncludes (doDownload h (neti 0) true 0 1000).outcome outDir = true
    · rw [if_pos hinc]
      exact ⟨_, _, rfl, rfl⟩
    · rw [if_neg hinc]
      exact ⟨_, _, rfl, rfl⟩

/-- Counterexample to C6 as stated ("resolution … never fails other than
by producing a syntactically invalid candidate string"): on the malformed
original URL `"not a url"` the resolver itself throws (`new URL(url)`,
line 126) — there is no candidate and no fallback. -/
theorem c6_resolver_throws_on_malformed :
    resolveOne "not a url" = none := by
  decide

/-! ## Claim C3 -/

/-- C3 (amended): for a not-yet-done work item with parsable original URL:
when the original equals the resolved URL, exactly one non-strict fetch
runs and its outcome is recorded; otherwise a strict fetch of the resolved
URL runs first and a second, non-strict fetch of the original URL through
the dedicated `retry` destination runs **iff the first outcome does not
contain the output-directory substring** (the source's heuristic — a
stored-asset path always contains it, but an error string containing it
also suppresses the retry, see the counterexample); whichever outcome the
last fetch produces is recorded, and no third fetch ever happens. -/
theorem c3_two_fetch_fallback (h : List Nat → String)
    (neti : Nat → Nat → FetchResult) (map : List (String × String))
    (k url : String) (kU : ParsedURL)
    (hmiss : getVal map k = none) (hk : parseURL k = some kU) :
    ∃ m' calls, processItem h neti map k url = some (m', calls) ∧
      calls.length ≤ 2 ∧
      (k = url →
        calls.map FetchCall.strict = [false] ∧
        m' = setVal map k (doDownload h (neti 0) false 0 1000).outcome) ∧
      (k ≠ url →
        ((calls.length = 2) ↔
          jsIncludes (doDownload h (neti 0) true 0 1000).outcome outDir = false) ∧
        (jsIncludes (doDownload h (neti 0) true 0 1000).outcome outDir = false →
          calls.getLast? = some ⟨kU, false, "retry"⟩ ∧
          (calls.map FetchCall.strict) = [true, false] ∧
          m' = setVal map k (doDownload h (neti 1) false 0 1000).outcome) ∧
        (jsIncludes (doDownload h (neti 0) true 0 1000).outcome outDir = true →
          (calls.map FetchCall.strict) = [true] ∧
          m' = setVal map k (doDownload h (neti 0) true 0 1000).outcome)) := by
  unfold processItem
  rw [if_neg (by rw [hmiss]; simp), hk]
  simp only []
  by_cases hke : (k == url) = true
  · rw [if_pos hke]
    have hkeq : k = url := by simpa using hke
    exact ⟨_, _, rfl, by simp, fun _ => ⟨rfl, rfl⟩, fun hne => absurd hkeq hne⟩
  · rw [if_neg hke]
    by_cases hinc : jsIncludes (doDownload h (neti 0) true 0 1000).outcome outDir = true
    · rw [if_pos hinc]
      refine ⟨_, _, rfl, by simp, fun he => absurd he (by simpa using hke), fun _ => ⟨?_, ?_, fun _ => ⟨rfl, rfl⟩⟩⟩
      · constructor
        · intro hlen
          simp at hlen
        · intro hf
          rw [hinc] at hf
          exact absurd hf (by simp)
      · intro hf
        rw [hinc] at hf
        exact absurd hf (by simp)
    · rw [if_neg hinc]
      have hincf : jsIncludes (doDownload h (neti 0) true 0 1000).outcome outDir = false := by
        simpa using hinc
      refine ⟨_, _, rfl, by simp, fun he => absurd he (by simpa using hke),
        fun _ => ⟨⟨fun _ => hincf, fun _ => rfl⟩, fun _ => ⟨rfl, rfl, rfl⟩,
          fun ht => absurd ht (by simp [hincf])⟩⟩

/-- Counterexample to C3 as stated ("if and only if that outcome is not a
stored-asset path"): a strict fetch answered with the invalid content-type
`audio/x;charset;./images` produces the error outcome
`Invalid content-type audio/x;charset;./images`, which is **not** a
stored-asset path, yet — because it happens to contain the substring
`./images` — the job records it after a single fetch and never performs
the non-strict retry against the original URL. -/
theorem c3_substring_heuristic_skips_retry :
    processItem (fun _ => "")
      (fun _ _ => FetchResult.response (some "audio/x;charset;./images") [])
      [] "http://w.example/?url=http://c.example/a" "http://c.example/a" =
      some ([("http://w.example/?url=http://c.example/a",
              "Invalid content-type audio/x;charset;./images")],
        [⟨⟨"http", "c.example", "/a", ""⟩, true, "c.example"⟩]) ∧
    isStoredAssetPath "Invalid content-type audio/x;charset;./images" = false := by
  constructor <;> decide

/-! ## Claim C9 -/

/-- Inductive invariant of one `Downloader` semaphore: the slot count is
non-negative, slots plus in-flight downloads equal the construction
capacity, and a non-empty wait queue means no slot is free. -/
def semInv (d : DownloaderState) : Prop :=
  0 ≤ d.avalibleDeliverySlots ∧
  d.avalibleDeliverySlots + inFlight d = (d.cap : Int) ∧
  (d.downloadQueue ≠ [] → d.avalibleDeliverySlots = 0)

/-- One well-formed step preserves the invariant and the capacity. -/
theorem semInv_step (d : DownloaderState) (e : SemEvent)
    (hinv : semInv d) (hwf : e = SemEvent.release → 0 < inFlight d) :
    semInv (semStep d e) ∧ (semStep d e).cap = d.cap := by
  obtain ⟨h0, hsum, hq⟩ := hinv
  unfold semInv
  unfold inFlight at hsum hwf ⊢
  cases e with
  | acquire id =>
    by_cases hs : d.avalibleDeliverySlots > 0
    · simp only [semStep, if_pos hs]
      refine ⟨⟨by omega, ?_, fun hne => absurd (hq hne) (by omega)⟩, by trivial⟩
      simp only [List.length_append, List.length_cons, List.length_nil]
      push_cast
      omega
    · simp only [semStep, if_neg hs]
      exact ⟨⟨h0, hsum, fun _ => by omega⟩, by trivial⟩
  | release =>
    have hf := hwf rfl
    cases hqd : d.downloadQueue with
    | nil =>
      simp only [semStep, hqd]
      refine ⟨⟨by omega, ?_, by simp⟩, by trivial⟩
      push_cast at hsum ⊢
      omega
    | cons w rest =>
      have hz := hq (by rw [hqd]; simp)
      simp only [semStep, hqd]
      refine ⟨⟨by omega, ?_, fun _ => by omega⟩, by trivial⟩
      simp only [List.length_append, List.length_cons, List.length_nil]
      push_cast
      omega

/-- The invariant and the capacity persist over any well-formed trace. -/
theorem semInv_runTrace (tr : List SemEvent) :
    ∀ d, semInv d → wfFrom d tr = true →
      semInv (runTrace d tr) ∧ (runTrace d tr).cap = d.cap := by
  induction tr with
  | nil => intro d hinv _; exact ⟨hinv, rfl⟩
  | cons e es ih =>
    intro d hinv hwf
    unfold wfFrom at hwf
    rw [Bool.and_eq_true] at hwf
    obtain ⟨h1, h2⟩ := hwf
    have hrel : e = SemEvent.release → 0 < inFlight d := by
      intro he
      subst he
      simpa using h1
    obtain ⟨hinv', hcap'⟩ := semInv_step d e hinv hrel
    have hrest := ih (semStep d e) hinv' h2
    unfold runTrace at hrest ⊢
    simp only [List.foldl_cons]
    exact ⟨hrest.1, hrest.2.trans hcap'⟩

/-- C9 (confirmed): a `Downloader` built with 128 slots keeps capacity 128
forever (nothing resizes it), never has more than 128 downloads in flight
after any well-formed event trace, suspends any acquire that finds no free
slot by appending the caller to the tail of the wait queue (granting it
nothing), and hands each released slot to the head of the wait queue — the
longest-waiting caller, FIFO — leaving the slot count unchanged. -/
theorem c9_admission_limiter_capacity (tr : List SemEvent)
    (hwf : wfFrom (mkDownloader 128) tr = true) :
    (runTrace (mkDownloader 128) tr).cap = 128 ∧
    inFlight (runTrace (mkDownloader 128) tr) ≤ 128 ∧
    (∀ id, (runTrace (mkDownloader 128) tr).avalibleDeliverySlots ≤ 0 →
      (semStep (runTrace (mkDownloader 128) tr) (SemEvent.acquire id)).downloadQueue =
        (runTrace (mkDownloader 128) tr).downloadQueue ++ [id] ∧
      (semStep (runTrace (mkDownloader 128) tr) (SemEvent.acquire id)).granted =
        (runTrace (mkDownloader 128) tr).granted) ∧
    (∀ w rest, (runTrace (mkDownloader 128) tr).downloadQueue = w :: rest →
      (semStep (runTrace (mkDownloader 128) tr) SemEvent.release).granted =
        (runTrace (mkDownloader 128) tr).granted ++ [w] ∧
      (semStep (runTrace (mkDownloader 128) tr) SemEvent.release).downloadQueue = rest ∧
      (semStep (runTrace (mkDownloader 128) tr) SemEvent.release).avalibleDeliverySlots =
        (runTrace (mkDownloader 128) tr).avalibleDeliverySlots) := by
  have hini : semInv (mkDownloader 128) := by
    refine ⟨by norm_num [mkDownloader], ?_, by simp [mkDownloader]⟩
    norm_num [mkDownloader, inFlight]
  obtain ⟨⟨h0, hsum, hq⟩, hcap⟩ := semInv_runTrace tr (mkDownloader 128) hini hwf
  have hcap128 : (runTrace (mkDownloader 128) tr).cap = 128 := hcap
  refine ⟨hcap128, ?_, ?_, ?_⟩
  · rw [hcap128] at hsum
    omega
  · intro id hs
    simp only [semStep, if_neg (by omega : ¬ (runTrace (mkDownloader 128) tr).avalibleDeliverySlots > 0)]
    exact ⟨by trivial, by trivial⟩
  · intro w rest hqr
    have hz := hq (by rw [hqr]; simp)
    simp only [semStep, hqr]
    refine ⟨by trivial, by trivial, by omega⟩

/-- Witness for C9: after two acquires and one release on a freshly built
128-slot `Downloader`, at most 128 downloads are in flight. -/
theorem c9_admission_limiter_capacity_witness :
    inFlight (runTrace (mkDownloader 128)
      [SemEvent.acquire 0, SemEvent.acquire 1, SemEvent.release]) ≤ 128 :=
  (c9_admission_limiter_capacity
    [SemEvent.acquire 0, SemEvent.acquire 1, SemEvent.release] (by decide)).2.1

/-! ## Witnesses -/

/-- Witness for C2: every attempt failing with `socket hang up` yields that
message after 6 attempts with sleeps of 1 s … 5 s. -/
theorem c2_transient_backoff_witness :
    doDownload (fun _ => "") (fun _ => FetchResult.error "socket hang up") false 0 1000 =
      ⟨"socket hang up", 6, [1000, 2000, 3000, 4000, 5000]⟩ :=
  c2_transient_backoff (fun _ => "") (fun _ => FetchResult.error "socket hang up") false
    (fun _ => "socket hang up") (fun _ _ => rfl)
    (fun _ _ => (by decide : isTerminalError "socket hang up" = false))

/-- Witness for C3: an item whose wrapped URL fails strictly with 404 is
retried at most once (never more than two fetches). -/
theorem c3_two_fetch_fallback_witness :
    ∃ m' calls,
      processItem (fun _ => "h2")
        (fun j _ => if j == 0 then FetchResult.error "Response code 404 (Not Found)"
          else FetchResult.response (some "image/png") [2])
        [] "http://w.example/?url=http://c.example/a.jpg" "http://c.example/a.jpg" =
        some (m', calls) ∧ calls.length ≤ 2 := by
  obtain ⟨m', calls, hpi, hlen, _⟩ := c3_two_fetch_fallback (fun _ => "h2")
    (fun j _ => if j == 0 then FetchResult.error "Response code 404 (Not Found)"
      else FetchResult.response (some "image/png") [2])
    [] "http://w.example/?url=http://c.example/a.jpg" "http://c.example/a.jpg"
    ⟨"http", "w.example", "/", "url=http://c.example/a.jpg"⟩ rfl (by decide)
  exact ⟨m', calls, hpi, hlen⟩

/-- Witness for C4: `content-type: text/plain` is rejected immediately on a
strict fetch and after 6 attempts on a non-strict fetch. -/
theorem c4_invalid_content_type_witness :
    doDownload (fun _ => "") (fun _ => FetchResult.response (some "text/plain") [7])
      true 0 1000 = ⟨"Invalid content-type text/plain", 1, []⟩ ∧
    doDownload (fun _ => "") (fun _ => FetchResult.response (some "text/plain") [7])
      false 0 1000 =
      ⟨"Invalid content-type text/plain", 6, [1000, 2000, 3000, 4000, 5000]⟩ :=
  c4_invalid_content_type (fun _ => "")
    (fun _ => FetchResult.response (some "text/plain") [7]) "text/plain" [7]
    (by decide) (fun _ _ => rfl) (by decide)

/-- Witness for C5: a body hashing to `d41d8cd98f00b204e9800998ecf8427e`
with `content-type: image/png` is stored at
`./images/d41d8cd98f00b204e9800998ecf8427e.png` regardless of mode. -/
theorem c5_content_addressed_path_witness :
    doDownload (fun _ => "d41d8cd98f00b204e9800998ecf8427e")
      (fun _ => FetchResult.response (some "image/png") []) true 0 1000 =
      ⟨"./images/d41d8cd98f00b204e9800998ecf8427e.png", 1, []⟩ := by
  have h := (c5_content_addressed_path (fun _ => "d41d8cd98f00b204e9800998ecf8427e")
    (fun _ => FetchResult.response (some "image/png") [])
    (fun _ => FetchResult.response (some "image/png") []) true false
    "image/png" "image" "png" [] (by decide) (by decide) (by decide) rfl rfl).1
  rw [h]
  decide

/-- Witness for C6: a wrapped URL's `url` query parameter is extracted and
its protocol-relative prefix stripped. -/
theorem c6_resolver_on_parsable_witness :
    resolveOne "http://w.example/?url=//cdn.example.com/a.jpg" =
      some "cdn.example.com/a.jpg" := by
  have h := (c6_resolver_on_parsable "http://w.example/?url=//cdn.example.com/a.jpg"
    ⟨"http", "w.example", "/", "url=//cdn.example.com/a.jpg"⟩ (by decide)).1
  rw [h]
  decide

/-- Witness for C8: a one-URL catalog with a successful fetch completes
with the item's outcome recorded. -/
theorem c8_run_never_aborts_on_fetch_failure_witness :
    ∃ final, runMain (fun _ => "h")
      (fun _ _ _ => FetchResult.response (some "image/png") [3])
      ["http://a.example/x.png"] [] = some final ∧
      ∀ u ∈ ["http://a.example/x.png"], (getVal final u).isSome :=
  c8_run_never_aborts_on_fetch_failure (fun _ => "h")
    (fun _ _ _ => FetchResult.response (some "image/png") [3])
    ["http://a.example/x.png"] [] (by decide)

/-- Witness for C10: a response with no content-type header stores the
body under a name with a trailing dot and empty extension. -/
theorem c10_missing_content_type_witness :
    doDownload (fun _ => "abc123") (fun _ => FetchResult.response none [1, 2])
      true 0 1000 = ⟨"./images/abc123.", 1, []⟩ := by
  rw [c10_missing_content_type (fun _ => "abc123")
    (fun _ => FetchResult.response none [1, 2]) true [1, 2] rfl]
  decide

end CoverParse
